import Mathlib

/-!
Shallow embedding of the contact-record ingestion service
(validation module, security middleware, CSV upload handler, database module).

Conventions of the embedding:
* JavaScript primitive values are modelled by the inductive type JSVal
  (undefined, null, strings, and numbers, where a number is an integer or NaN;
  the record fields handled by this program only ever hold these primitives).
* Pure JS functions become Lean functions; functions that can throw return
  an Except value whose error constructor marks the thrown TypeError.
* The relational store is modelled as the list of parameter rows committed
  by executed insert statements; transactional bulk insert buffers its
  statements and applies them only on commit, discarding them on rollback.
  Store failures are injected by a function giving, for each statement index
  inside the transaction, whether that statement fails.
-/

/-- JavaScript numbers as used by this program: an integer or NaN. -/
inductive JSNum where
  | int (i : Int)
  | nan
deriving DecidableEq

/-- JavaScript primitive values flowing through the pipelines. -/
inductive JSVal where
  | undefined
  | null
  | str (s : String)
  | num (n : JSNum)
deriving DecidableEq

/-- JavaScript truthiness of a primitive value: undefined, null, the empty
string, 0 and NaN are falsy; every other modelled value is truthy. -/
def jsTruthy : JSVal → Bool
  | JSVal.undefined => false
  | JSVal.null => false
  | JSVal.str s => !(s = "")
  | JSVal.num (JSNum.int i) => !(i = 0)
  | JSVal.num JSNum.nan => false

/-- Whether a value is a JS string (the typeof value === string test). -/
def jsIsString : JSVal → Bool
  | JSVal.str _ => true
  | _ => false

/-- JavaScript ToString on the modelled primitives. -/
def jsToString : JSVal → String
  | JSVal.undefined => "undefined"
  | JSVal.null => "null"
  | JSVal.str s => s
  | JSVal.num (JSNum.int i) => toString i
  | JSVal.num JSNum.nan => "NaN"

/-- The JS expression x || null, used by insertRecord and insertBulkRecords
to coerce falsy optional fields to SQL NULL. -/
def jsOrNull (v : JSVal) : JSVal :=
  if jsTruthy v then v else JSVal.null

/-- Whitespace characters trimmed by String.prototype.trim: the full
ECMAScript set, WhiteSpace (tab, vertical tab, form feed, space, no-break
space, zero-width no-break space, and the Unicode space separators)
together with the line terminators (line feed, carriage return, line
separator, paragraph separator). -/
def jsWS (c : Char) : Bool :=
  decide (c ∈
    ['\t', '\n', '\x0B', '\x0C', '\r', ' ', '\u00A0', '\u1680',
     '\u2000', '\u2001', '\u2002', '\u2003', '\u2004', '\u2005',
     '\u2006', '\u2007', '\u2008', '\u2009', '\u200A', '\u2028',
     '\u2029', '\u202F', '\u205F', '\u3000', '\uFEFF'])

/-- Characters removed by the second replace of sanitizeInput,
the class [<>"'&]. -/
def specialChar (c : Char) : Bool :=
  c = '<' || c = '>' || c = '"' || c = '\'' || c = '&'

/-- One-pass scanner equivalent to the global replacement of the regex
matching a < through the next > (the first replace of sanitizeInput).
The first argument buffers, in reverse, the characters of a match opened
by a < that has not yet seen its closing >; a < with no later > anywhere
starts no match, so at the end of the input the buffer is flushed
verbatim (no > can occur after it, hence nothing in it can match). -/
def removeTagsGo : Option (List Char) → List Char → List Char
  | none, [] => []
  | some buf, [] => buf.reverse
  | none, c :: rest =>
    if c = '<' then removeTagsGo (some [c]) rest
    else c :: removeTagsGo none rest
  | some buf, c :: rest =>
    if c = '>' then removeTagsGo none rest
    else removeTagsGo (some (c :: buf)) rest

/-- Global removal of every substring matching a < through the next >
(the first replace of sanitizeInput). -/
def removeTags (l : List Char) : List Char :=
  removeTagsGo none l

/-- Removal of every character of the class [<>"'&]
(the second replace of sanitizeInput). -/
def removeSpecials (l : List Char) : List Char :=
  l.filter (fun c => !specialChar c)

/-- String.prototype.trim on the character list of a string. -/
def jsTrimList (l : List Char) : List Char :=
  (((l.dropWhile jsWS).reverse.dropWhile jsWS)).reverse

/-- Validation.sanitizeInput: non-strings pass through; a string has HTML
tags removed, then the remaining special characters removed, then is
trimmed. -/
def sanitizeInput (v : JSVal) : JSVal :=
  match v with
  | JSVal.str s => JSVal.str (String.mk (jsTrimList (removeSpecials (removeTags s.data))))
  | v => v

/-- The record object shape used across the program. A field the JS object
does not carry is JSVal.undefined. -/
structure Record where
  first_name : JSVal
  last_name : JSVal
  email : JSVal
  phone_number : JSVal
  eircode : JSVal
  age : JSVal
deriving DecidableEq

/-- Validation.sanitizeRecord: applies sanitizeInput to every string-valued
field and leaves the others unchanged, returning a new record. Since
sanitizeInput already passes non-strings through, this is sanitizeInput
applied to every field. -/
def sanitizeRecord (r : Record) : Record where
  first_name := sanitizeInput r.first_name
  last_name := sanitizeInput r.last_name
  email := sanitizeInput r.email
  phone_number := sanitizeInput r.phone_number
  eircode := sanitizeInput r.eircode
  age := sanitizeInput r.age

/-- Value of the longest leading run of decimal digits, if nonempty. -/
def digitsVal (l : List Char) : Option Int :=
  let d := l.takeWhile Char.isDigit
  if d = [] then none
  else some (d.foldl (fun a c => a * 10 + (Int.ofNat (c.toNat - 48))) 0)

/-- JavaScript parseInt on a string, radix 10: skip leading whitespace,
an optional sign, then the longest digit run; NaN if there is no digit. -/
def jsParseIntStr (s : String) : JSNum :=
  match s.data.dropWhile jsWS with
  | '-' :: rest =>
    match digitsVal rest with
    | none => JSNum.nan
    | some n => JSNum.int (-n)
  | '+' :: rest =>
    match digitsVal rest with
    | none => JSNum.nan
    | some n => JSNum.int n
  | l =>
    match digitsVal l with
    | none => JSNum.nan
    | some n => JSNum.int n

/-- JavaScript parseInt on a primitive value: the argument is coerced to a
string first (so undefined, null and NaN all parse to NaN and an integer
parses to itself). -/
def jsParseInt (v : JSVal) : JSNum :=
  jsParseIntStr (jsToString v)

/-- Thrown JS errors relevant to the embedding. -/
inductive JSErr where
  | typeError
deriving DecidableEq

instance {ε α : Type} [DecidableEq ε] [DecidableEq α] : DecidableEq (Except ε α) :=
  fun a b =>
    match a, b with
    | Except.ok x, Except.ok y =>
      if h : x = y then isTrue (by rw [h]) else isFalse (by simp [h])
    | Except.error x, Except.error y =>
      if h : x = y then isTrue (by rw [h]) else isFalse (by simp [h])
    | Except.ok _, Except.error _ => isFalse (by simp)
    | Except.error _, Except.ok _ => isFalse (by simp)

/-- Message carried by a thrown error (used by the CSV row catch block). -/
def errMessage : JSErr → String
  | JSErr.typeError => "Expected a string"

/-- Model of the isEmail check of the third-party validator library (the
library is not part of this repository). It asserts its argument is a
string, throwing a TypeError otherwise; on a string it performs a
library-grade syntax check, modelled here as the standard
local-part at domain shape: nonempty local part of email-safe characters,
domain of at least two nonempty labels of letters, digits and hyphens,
with an alphabetic final label of length at least 2. The claims evaluate
this model only on clearly well-formed or clearly ill-formed addresses.
First, splitting a character list on a separator (the split of the String
class, on character lists). -/
def splitOnChar (sep : Char) (l : List Char) : List (List Char) :=
  match l with
  | [] => [[]]
  | c :: rest =>
    let tail := splitOnChar sep rest
    if c = sep then [] :: tail
    else
      match tail with
      | [] => [[c]]
      | t :: ts => (c :: t) :: ts

/-- The isEmail model itself (see the comment above splitOnChar). -/
def validator_isEmail (v : JSVal) : Except JSErr Bool :=
  match v with
  | JSVal.str s =>
    Except.ok (
      match splitOnChar '@' s.data with
      | [localPart, domain] =>
        let localOk := !localPart.isEmpty &&
          localPart.all (fun c => c.isAlphanum || c = '.' || c = '_' || c = '-' || c = '+')
        let labels := splitOnChar '.' domain
        let labelsOk := decide (labels.length ≥ 2) &&
          labels.all (fun lab => !lab.isEmpty && lab.all (fun c => c.isAlphanum || c = '-'))
        let tldOk :=
          match labels.getLast? with
          | some t => decide (t.length ≥ 2) && t.all Char.isAlpha
          | none => false
        localOk && labelsOk && tldOk
      | _ => false)
  | _ => Except.error JSErr.typeError

/-- Validation.isValidName: false for falsy or non-string input; otherwise
trim, then require length 1 to 20 and only letters and digits. -/
def isValidName (v : JSVal) : Bool :=
  match v with
  | JSVal.str s =>
    let t := jsTrimList s.data
    !(t = []) && t.length ≤ 20 && t.all Char.isAlphanum
  | _ => false

/-- Validation.isValidEmail delegates to the validator library, so it
propagates the TypeError the library throws on non-string input. -/
def isValidEmail (v : JSVal) : Except JSErr Bool :=
  validator_isEmail v

/-- Validation.isValidPhone: falsy input fails; otherwise coerce to string,
strip non-digits, and require exactly 10 digits. -/
def isValidPhone (v : JSVal) : Bool :=
  if !jsTruthy v then false
  else ((jsToString v).data.filter Char.isDigit).length = 10

/-- Validation.isValidEircode: falsy input fails; a string is trimmed and
must be 6 characters, a digit first and alphanumeric after; calling trim on
a truthy non-string throws a TypeError. -/
def isValidEircode (v : JSVal) : Except JSErr Bool :=
  if !jsTruthy v then Except.ok false
  else
    match v with
    | JSVal.str s =>
      Except.ok (
        match jsTrimList s.data with
        | c :: rest => c.isDigit && rest.length = 5 && rest.all Char.isAlphanum
        | [] => false)
    | _ => Except.error JSErr.typeError

/-- Validation.isValidAge: parseInt the input; valid iff the parse is not
NaN and the value lies between 0 and 120. -/
def isValidAge (v : JSVal) : Bool :=
  match jsParseInt v with
  | JSNum.nan => false
  | JSNum.int i => 0 ≤ i && i ≤ 120

/-- Violation message for a failing first name. -/
def fnMsg : String := "First name must contain only letters/numbers and be max 20 characters"

/-- Violation message for a failing last name. -/
def lnMsg : String := "Last name must contain only letters/numbers and be max 20 characters"

/-- Violation message for a failing email. -/
def emMsg : String := "Invalid email format"

/-- Violation message for a missing phone number (form source). -/
def phoneReqMsg : String := "Phone number is required"

/-- Violation message for a present but invalid phone number (form source). -/
def phoneRuleMsg : String := "Phone number must be exactly 10 digits"

/-- Violation message for a missing eircode (form source). -/
def eirReqMsg : String := "Eircode is required"

/-- Violation message for a present but invalid eircode (form source). -/
def eirRuleMsg : String := "Eircode must start with a number and be exactly 6 alphanumeric characters"

/-- Violation message for a failing age (csv source). -/
def ageMsg : String := "Age must be a number between 0 and 120"

/-- Result object of Validation.validateRecord. -/
structure VResult where
  isValid : Bool
  errors : List String
deriving DecidableEq

/-- Validation.validateRecord: first name, last name and email are checked
unconditionally in that order; then source-specific checks run. The source
is the raw string argument of the JS function (form, csv, or anything
else). The email check (and, for a truthy non-string eircode, the eircode
check) can throw, which aborts the whole call. -/
def validateRecord (r : Record) (source : String) : Except JSErr VResult :=
  let e1 : List String := if isValidName r.first_name then [] else [fnMsg]
  let e2 : List String := if isValidName r.last_name then [] else [lnMsg]
  match isValidEmail r.email with
  | Except.error e => Except.error e
  | Except.ok emOk =>
    let e3 : List String := if emOk then [] else [emMsg]
    if source = "form" then
      let e4 : List String :=
        if !jsTruthy r.phone_number then [phoneReqMsg]
        else if !isValidPhone r.phone_number then [phoneRuleMsg]
        else []
      if jsTruthy r.eircode then
        match isValidEircode r.eircode with
        | Except.error e => Except.error e
        | Except.ok ecOk =>
          let e5 : List String := if ecOk then [] else [eirRuleMsg]
          let errs := e1 ++ e2 ++ e3 ++ e4 ++ e5
          Except.ok ⟨errs = [], errs⟩
      else
        let errs := e1 ++ e2 ++ e3 ++ e4 ++ [eirReqMsg]
        Except.ok ⟨errs = [], errs⟩
    else if source = "csv" then
      let e4 : List String :=
        if jsTruthy r.age && !isValidAge r.age then [ageMsg] else []
      let errs := e1 ++ e2 ++ e3 ++ e4
      Except.ok ⟨errs = [], errs⟩
    else
      let errs := e1 ++ e2 ++ e3
      Except.ok ⟨errs = [], errs⟩

/-- Request body of the form endpoint as consumed by the middleware
(the required camelCase keys; a key the client did not send is undefined). -/
structure FormBody where
  firstName : JSVal
  lastName : JSVal
  email : JSVal
  phoneNumber : JSVal
  eircode : JSVal
deriving DecidableEq

/-- Validation.sanitizeRecord applied to the form request body. -/
def sanitizeFormBody (b : FormBody) : FormBody where
  firstName := sanitizeInput b.firstName
  lastName := sanitizeInput b.lastName
  email := sanitizeInput b.email
  phoneNumber := sanitizeInput b.phoneNumber
  eircode := sanitizeInput b.eircode

/-- Outcome of SecurityMiddleware.validateFormInput: a 400 for a missing
required field, a 400 with the violation list, a 500 when validation
throws, or control passed to the route handler with the validated data. -/
inductive FormOutcome where
  | missing (field : String)
  | invalid (errors : List String)
  | serverError
  | next (formData : Record)
deriving DecidableEq

/-- SecurityMiddleware.validateFormInput: sanitize the whole body, check
the five required fields in order, build the snake_case record (with no age
key), validate with source form, and pass on or reject. The catch block
maps a thrown validation error to a 500. -/
def validateFormInput (body : FormBody) : FormOutcome :=
  let b := sanitizeFormBody body
  if !jsTruthy b.firstName then FormOutcome.missing "firstName"
  else if !jsTruthy b.lastName then FormOutcome.missing "lastName"
  else if !jsTruthy b.email then FormOutcome.missing "email"
  else if !jsTruthy b.phoneNumber then FormOutcome.missing "phoneNumber"
  else if !jsTruthy b.eircode then FormOutcome.missing "eircode"
  else
    let formData : Record :=
      { first_name := b.firstName, last_name := b.lastName, email := b.email,
        phone_number := b.phoneNumber, eircode := b.eircode, age := JSVal.undefined }
    match validateRecord formData "form" with
    | Except.error _ => FormOutcome.serverError
    | Except.ok v =>
      if v.isValid then FormOutcome.next formData else FormOutcome.invalid v.errors

/-- A parsed CSV data row as delivered by the csv-parser stream: the four
header columns; a column absent from the file is undefined. -/
structure CsvRow where
  first_name : JSVal
  last_name : JSVal
  email : JSVal
  age : JSVal
deriving DecidableEq

/-- The candidate record the CSV handler builds from a row: names and email
copied verbatim, age parsed with parseInt, no phone or eircode keys. -/
def rowToRecord (row : CsvRow) : Record where
  first_name := row.first_name
  last_name := row.last_name
  email := row.email
  phone_number := JSVal.undefined
  eircode := JSVal.undefined
  age := JSVal.num (jsParseInt row.age)

/-- Outcome of processing one CSV data row. -/
inductive RowResult where
  | accepted (r : Record)
  | rejected (data : Record) (errors : List String)
  | parseError (msg : String)
deriving DecidableEq

/-- Per-row body of the CSV data callback: build the candidate record,
validate it with source csv (on the raw, unsanitized record), sanitize it
only if it passed, and turn a thrown error into a parse-error entry. -/
def csvRowStep (row : CsvRow) : RowResult :=
  let record := rowToRecord row
  match validateRecord record "csv" with
  | Except.error e => RowResult.parseError (errMessage e)
  | Except.ok v =>
    if v.isValid then RowResult.accepted (sanitizeRecord record)
    else RowResult.rejected record v.errors

/-- An entry of the errors array of the upload response: a validation
rejection (row, data, errors) or a parse error (row, error). -/
inductive ErrorEntry where
  | vrej (row : Nat) (data : Record) (errors : List String)
  | perr (row : Nat) (msg : String)
deriving DecidableEq

/-- Fold of csvRowStep over the data rows, numbering rows from the given
ordinal, accumulating the accepted records and the error entries in row
order. -/
def processRowsAux (n : Nat) : List CsvRow → List Record × List ErrorEntry
  | [] => ([], [])
  | row :: rest =>
    let tail := processRowsAux (n + 1) rest
    match csvRowStep row with
    | RowResult.accepted r => (r :: tail.1, tail.2)
    | RowResult.rejected d e => (tail.1, ErrorEntry.vrej n d e :: tail.2)
    | RowResult.parseError m => (tail.1, ErrorEntry.perr n m :: tail.2)

/-- Row processing of handleCSVUpload with row numbering starting at 1. -/
def processRows (rows : List CsvRow) : List Record × List ErrorEntry :=
  processRowsAux 1 rows

/-- The accepted (sanitized) records a CSV upload would pass to the bulk
insert. -/
def acceptedRecords (rows : List CsvRow) : List Record :=
  (processRows rows).1

/-- The store: the parameter rows of all committed insert statements. -/
abbrev StoreState := List (List JSVal)

/-- Parameter row bound by the bulk-insert statement of insertBulkRecords:
first name, last name, email, and age coerced to NULL when falsy. -/
def bulkParams (r : Record) : List JSVal :=
  [r.first_name, r.last_name, r.email, jsOrNull r.age]

/-- Parameter row bound by the single-record statement of insertRecord:
names and email verbatim, phone number, eircode and age coerced to NULL
when falsy. -/
def insertRecordParams (d : Record) : List JSVal :=
  [d.first_name, d.last_name, d.email,
   jsOrNull d.phone_number, jsOrNull d.eircode, jsOrNull d.age]

/-- Statements executed on the transaction connection of
insertBulkRecords, in order, with failure injection by statement index:
the buffered parameter rows on success, or the first failure. -/
def runTxAux (fails : Nat → Bool) : Nat → List Record → Except Unit (List (List JSVal))
  | _, [] => Except.ok []
  | i, r :: rs =>
    if fails i then Except.error ()
    else
      match runTxAux fails (i + 1) rs with
      | Except.error e => Except.error e
      | Except.ok stmts => Except.ok (bulkParams r :: stmts)

/-- Database.insertBulkRecords: begin a transaction, execute one insert
per record on the transaction connection, commit on success and roll back
on the first failure. Rollback leaves the store exactly as it was;
commit appends every buffered row. The error is rethrown to the caller. -/
def insertBulkRecords (st : StoreState) (fails : Nat → Bool) (records : List Record) :
    Except Unit Nat × StoreState :=
  match runTxAux fails 0 records with
  | Except.error _ => (Except.error (), st)
  | Except.ok stmts => (Except.ok records.length, st ++ stmts)

/-- Whether any statement index below n is injected as failing. -/
def txFailIdx (fails : Nat → Bool) (n : Nat) : Bool :=
  (List.range n).any fails

/-- Summary object of a successful CSV upload response. -/
structure CsvSummary where
  totalRows : Nat
  validRecords : Nat
  invalidRecords : Nat
  errors : List ErrorEntry
deriving DecidableEq

/-- HTTP response of the CSV upload handler: the 200 summary, or the 500
produced by the catch block when the pipeline fails. -/
inductive CsvResponse where
  | success (s : CsvSummary)
  | failure
deriving DecidableEq

/-- Whether a CSV response is the success response. -/
def CsvResponse.isSuccess : CsvResponse → Bool
  | CsvResponse.success _ => true
  | CsvResponse.failure => false

/-- Observable outcome of one CSV upload request: the response, whether
the temporary upload file was unlinked, the resulting store, and the list
of bulk-persist calls (each with the records it was given). -/
structure UploadOutcome where
  response : CsvResponse
  fileDeleted : Bool
  store : StoreState
  bulkCalls : List (List Record)
deriving DecidableEq

/-- Server.handleCSVUpload after the file stream has delivered its rows:
process every row, bulk-insert the accepted records if there are any, then
unlink the temporary file and answer with the summary. A store failure
jumps to the catch block, which answers 500 without reaching the unlink. -/
def handleCSVUpload (st : StoreState) (fails : Nat → Bool) (rows : List CsvRow) :
    UploadOutcome :=
  let processed := processRows rows
  let records := processed.1
  let errs := processed.2
  if records = [] then
    { response := CsvResponse.success
        ⟨rows.length, records.length, errs.length, errs⟩,
      fileDeleted := true, store := st, bulkCalls := [] }
  else
    match insertBulkRecords st fails records with
    | (Except.error _, st2) =>
      { response := CsvResponse.failure, fileDeleted := false,
        store := st2, bulkCalls := [records] }
    | (Except.ok _, st2) =>
      { response := CsvResponse.success
          ⟨rows.length, records.length, errs.length, errs⟩,
        fileDeleted := true, store := st2, bulkCalls := [records] }

/-- The fixed order in which validateRecord can emit violation messages
for a given source: the three common messages first, then the
source-specific ones. -/
def canonicalMsgs (source : String) : List String :=
  [fnMsg, lnMsg, emMsg] ++
    (if source = "form" then [phoneReqMsg, phoneRuleMsg, eirReqMsg, eirRuleMsg]
     else if source = "csv" then [ageMsg]
     else [])

/-- Strings matching the pattern of one to twenty letters or digits
(the accept side of the name rule as the spec states it). -/
def namePat (s : String) : Prop :=
  s.data ≠ [] ∧ s.data.length ≤ 20 ∧ ∀ c ∈ s.data, c.isAlphanum

/-! Helper lemmas about the character-level operations of the sanitizer. -/

/-- dropWhile is the identity when the first element already fails the
predicate (and hence when every element does). -/
theorem dropWhile_eq_self_of_all {α : Type} (p : α → Bool) (l : List α)
    (h : ∀ c ∈ l, p c = false) : l.dropWhile p = l := by
  cases l with
  | nil => rfl
  | cons a t =>
    rw [List.dropWhile_cons_of_neg]
    simp [h a (List.mem_cons_self a t)]

/-- dropWhile is idempotent. -/
theorem dropWhile_idem {α : Type} (p : α → Bool) (l : List α) :
    (l.dropWhile p).dropWhile p = l.dropWhile p := by
  cases h : l.dropWhile p with
  | nil => rfl
  | cons a t =>
    have ha : p a = false := by
      have hh := List.head?_dropWhile_not p l
      rw [h] at hh
      simpa using hh
    rw [List.dropWhile_cons_of_neg (by simp [ha])]

/-- An element failing the predicate survives dropWhile. -/
theorem mem_dropWhile_of_neg {α : Type} (p : α → Bool) (l : List α) (c : α)
    (hc : c ∈ l) (hp : p c = false) : c ∈ l.dropWhile p := by
  induction l with
  | nil => cases hc
  | cons a t ih =>
    by_cases h : p a = true
    · rw [List.dropWhile_cons_of_pos h]
      rcases List.mem_cons.mp hc with rfl | hm
      · rw [h] at hp; cases hp
      · exact ih hm
    · rw [List.dropWhile_cons_of_neg h]
      exact hc

/-- Every character of the trimmed list occurs in the original list. -/
theorem mem_of_mem_jsTrimList (l : List Char) (c : Char)
    (h : c ∈ jsTrimList l) : c ∈ l := by
  unfold jsTrimList at h
  rw [List.mem_reverse] at h
  have h1 := List.dropWhile_subset (l := (l.dropWhile jsWS).reverse) jsWS h
  rw [List.mem_reverse] at h1
  exact List.dropWhile_subset jsWS h1

/-- A non-whitespace character of the original list survives trimming. -/
theorem mem_jsTrimList_of_not_ws (l : List Char) (c : Char)
    (hc : c ∈ l) (hw : jsWS c = false) : c ∈ jsTrimList l := by
  unfold jsTrimList
  rw [List.mem_reverse]
  apply mem_dropWhile_of_neg _ _ _ _ hw
  rw [List.mem_reverse]
  exact mem_dropWhile_of_neg _ _ _ hc hw

/-- Trimming is the identity on a list without whitespace characters. -/
theorem jsTrimList_eq_self_of_all (l : List Char)
    (h : ∀ c ∈ l, jsWS c = false) : jsTrimList l = l := by
  unfold jsTrimList
  rw [dropWhile_eq_self_of_all _ _ h]
  rw [dropWhile_eq_self_of_all _ _ (by intro c hc; exact h c (List.mem_reverse.mp hc))]
  exact List.reverse_reverse l

/-- Trimming is idempotent. -/
theorem jsTrimList_idem (l : List Char) :
    jsTrimList (jsTrimList l) = jsTrimList l := by
  unfold jsTrimList
  have hM := dropWhile_idem jsWS ((l.dropWhile jsWS).reverse)
  have h1 : ((l.dropWhile jsWS).reverse.dropWhile jsWS).reverse.dropWhile jsWS
      = ((l.dropWhile jsWS).reverse.dropWhile jsWS).reverse := by
    cases hrev : ((l.dropWhile jsWS).reverse.dropWhile jsWS).reverse with
    | nil => rfl
    | cons a t =>
      have hlast : ((l.dropWhile jsWS).reverse.dropWhile jsWS).getLast? = some a := by
        rw [← List.head?_reverse, hrev]
        rfl
      obtain ⟨pre, hpre⟩ := List.dropWhile_suffix (l := (l.dropWhile jsWS).reverse) jsWS
      have hXlast : (l.dropWhile jsWS).reverse.getLast? = some a := by
        rw [← hpre, List.getLast?_append, hlast]
        rfl
      rw [List.getLast?_reverse] at hXlast
      have hha := List.head?_dropWhile_not jsWS l
      rw [hXlast] at hha
      have ha : jsWS a = false := by simpa using hha
      exact List.dropWhile_cons_of_neg (by simp [ha])
  rw [h1, List.reverse_reverse, hM]

/-- The tag scanner is the identity on input without an opening angle
bracket. -/
theorem removeTagsGo_none_eq_self (l : List Char)
    (h : ∀ c ∈ l, (c = '<') = False) : removeTagsGo none l = l := by
  induction l with
  | nil => rfl
  | cons a t ih =>
    unfold removeTagsGo
    have ha : ¬ (a = '<') := by
      have := h a (List.mem_cons_self a t)
      simp [this]
    rw [if_neg ha]
    rw [ih (by intro c hc; exact h c (List.mem_cons_of_mem a hc))]

/-- Tag removal is the identity on input without an opening angle
bracket. -/
theorem removeTags_eq_self (l : List Char)
    (h : ∀ c ∈ l, (c = '<') = False) : removeTags l = l :=
  removeTagsGo_none_eq_self l h

/-- Every character surviving removeSpecials is non-special. -/
theorem not_special_of_mem_removeSpecials (l : List Char) (c : Char)
    (h : c ∈ removeSpecials l) : specialChar c = false := by
  unfold removeSpecials at h
  have := (List.mem_filter.mp h).2
  simpa using this

/-- Idempotence of the field sanitizer on every primitive value. -/
theorem sanitizeInput_idem (v : JSVal) :
    sanitizeInput (sanitizeInput v) = sanitizeInput v := by
  cases v with
  | str s =>
    show JSVal.str _ = JSVal.str _
    have hchars : ∀ c ∈ jsTrimList (removeSpecials (removeTags s.data)),
        specialChar c = false := by
      intro c hc
      exact not_special_of_mem_removeSpecials _ c (mem_of_mem_jsTrimList _ c hc)
    have h1 : removeTags (jsTrimList (removeSpecials (removeTags s.data)))
        = jsTrimList (removeSpecials (removeTags s.data)) := by
      apply removeTags_eq_self
      intro c hc
      have := hchars c hc
      unfold specialChar at this
      simp only [Bool.or_eq_false_iff, decide_eq_false_iff_not] at this
      simp [this.1.1.1.1]
    have h2 : removeSpecials (jsTrimList (removeSpecials (removeTags s.data)))
        = jsTrimList (removeSpecials (removeTags s.data)) := by
      unfold removeSpecials
      rw [List.filter_eq_self]
      intro c hc
      simp [hchars c hc]
    simp only [sanitizeInput]
    rw [h1, h2, jsTrimList_idem]
  | undefined => rfl
  | null => rfl
  | num n => rfl

/-- Idempotence of record sanitization. -/
theorem sanitizeRecord_idem (r : Record) :
    sanitizeRecord (sanitizeRecord r) = sanitizeRecord r := by
  unfold sanitizeRecord
  simp [sanitizeInput_idem]

/-- Idempotence of form-body sanitization. -/
theorem sanitizeFormBody_idem (b : FormBody) :
    sanitizeFormBody (sanitizeFormBody b) = sanitizeFormBody b := by
  unfold sanitizeFormBody
  simp [sanitizeInput_idem]

/-! Helper lemmas about the transactional bulk insert. -/

/-- The transaction fails exactly when some statement index within the
batch is injected as failing. -/
theorem runTxAux_error_iff (fails : Nat → Bool) (rs : List Record) (i : Nat) :
    runTxAux fails i rs = Except.error () ↔
      ∃ j, j < rs.length ∧ fails (i + j) = true := by
  induction rs generalizing i with
  | nil =>
    simp [runTxAux]
  | cons r rest ih =>
    constructor
    · intro he
      unfold runTxAux at he
      by_cases h : fails i = true
      · exact ⟨0, by simp, by simpa using h⟩
      · rw [if_neg (by simp [h])] at he
        cases hrec : runTxAux fails (i + 1) rest with
        | error e =>
          cases e
          obtain ⟨j, hj, hfj⟩ := (ih (i + 1)).mp hrec
          refine ⟨j + 1, by simpa using hj, ?_⟩
          rw [← hfj]
          congr 1
          omega
        | ok stmts =>
          rw [hrec] at he
          cases he
    · intro ⟨j, hj, hfj⟩
      unfold runTxAux
      by_cases h : fails i = true
      · rw [if_pos h]
      · rw [if_neg (by simp [h])]
        have hj1 : j ≠ 0 := by
          intro h0
          rw [h0, Nat.add_zero] at hfj
          exact h hfj
        obtain ⟨k, rfl⟩ : ∃ k, j = k + 1 := ⟨j - 1, by omega⟩
        have hrec : runTxAux fails (i + 1) rest = Except.error () := by
          apply (ih (i + 1)).mpr
          refine ⟨k, by simpa using hj, ?_⟩
          rw [← hfj]
          congr 1
          omega
        rw [hrec]

/-- txFailIdx detects exactly the failing indices below the batch size. -/
theorem txFailIdx_iff (fails : Nat → Bool) (n : Nat) :
    txFailIdx fails n = true ↔ ∃ j, j < n ∧ fails j = true := by
  unfold txFailIdx
  rw [List.any_eq_true]
  constructor
  · intro ⟨x, hx, hfx⟩
    exact ⟨x, List.mem_range.mp hx, hfx⟩
  · intro ⟨j, hj, hfj⟩
    exact ⟨j, List.mem_range.mpr hj, hfj⟩

/-- A failing statement makes insertBulkRecords roll back: the store is
returned unchanged and the error is rethrown. -/
theorem insertBulkRecords_rollback (st : StoreState) (fails : Nat → Bool)
    (records : List Record) (hf : txFailIdx fails records.length = true) :
    insertBulkRecords st fails records = (Except.error (), st) := by
  obtain ⟨j, hj, hfj⟩ := (txFailIdx_iff fails records.length).mp hf
  have he : runTxAux fails 0 records = Except.error () :=
    (runTxAux_error_iff fails records 0).mpr ⟨j, hj, by simpa using hfj⟩
  unfold insertBulkRecords
  rw [he]

/-! Sample data used by concrete theorems and witnesses. -/

/-- A fully valid CSV row. -/
def sampleRow : CsvRow :=
  ⟨JSVal.str "John", JSVal.str "Doe", JSVal.str "john@example.com", JSVal.str "30"⟩

/-- A CSV row with an invalid email. -/
def badEmailRow : CsvRow :=
  ⟨JSVal.str "Jane", JSVal.str "Doe", JSVal.str "not-an-email", JSVal.str "25"⟩

/-- A CSV row with age 200. -/
def badAgeRow : CsvRow :=
  ⟨JSVal.str "Bob", JSVal.str "Smith", JSVal.str "bob@example.com", JSVal.str "200"⟩

/-- A CSV row whose first name carries an HTML tag. -/
def tagNameRow : CsvRow :=
  ⟨JSVal.str "<b>John</b>", JSVal.str "Doe", JSVal.str "john@example.com", JSVal.str "30"⟩

/-- A CSV row with a non-numeric age. -/
def nanAgeRow : CsvRow :=
  ⟨JSVal.str "John", JSVal.str "Doe", JSVal.str "john@example.com", JSVal.str "abc"⟩

/-- A record with valid names and email and age 200. -/
def age200Rec : Record :=
  ⟨JSVal.str "Bob", JSVal.str "Smith", JSVal.str "bob@example.com",
   JSVal.undefined, JSVal.undefined, JSVal.num (JSNum.int 200)⟩

/-- A record whose optional fields are all falsy: age 0, empty phone number
and empty eircode. -/
def falsyOptRec : Record :=
  ⟨JSVal.str "John", JSVal.str "Doe", JSVal.str "john@example.com",
   JSVal.str "", JSVal.str "", JSVal.num (JSNum.int 0)⟩

/-- C9: the field sanitizer is idempotent on strings: sanitizing a string
value twice gives the same result as sanitizing it once. -/
theorem claim_C9 (x : String) :
    sanitizeInput (sanitizeInput (JSVal.str x)) = sanitizeInput (JSVal.str x) :=
  sanitizeInput_idem (JSVal.str x)

/-- C10: single-record persistence coerces every falsy optional field to
NULL before storage: an age of 0 (and any other falsy age, such as NaN) is
bound as NULL, as are an empty-string phone number and eircode; the
bulk-insert path applies the same coercion to age. -/
theorem claim_C10 (d : Record) :
    (d.age = JSVal.num (JSNum.int 0) →
      insertRecordParams d =
        [d.first_name, d.last_name, d.email,
         jsOrNull d.phone_number, jsOrNull d.eircode, JSVal.null] ∧
      bulkParams d = [d.first_name, d.last_name, d.email, JSVal.null]) ∧
    (d.phone_number = JSVal.str "" → (insertRecordParams d)[3]? = some JSVal.null) ∧
    (d.eircode = JSVal.str "" → (insertRecordParams d)[4]? = some JSVal.null) ∧
    (jsTruthy d.age = false →
      (insertRecordParams d)[5]? = some JSVal.null ∧
      (bulkParams d)[3]? = some JSVal.null) := by
  refine ⟨?_, ?_, ?_, ?_⟩
  · intro h
    constructor
    · unfold insertRecordParams
      rw [h]
      rfl
    · unfold bulkParams
      rw [h]
      rfl
  · intro h
    unfold insertRecordParams
    rw [h]
    rfl
  · intro h
    unfold insertRecordParams
    rw [h]
    rfl
  · intro h
    constructor
    · unfold insertRecordParams jsOrNull
      rw [h]
      rfl
    · unfold bulkParams jsOrNull
      rw [h]
      rfl

/-- Witness for C10 at a concrete record whose age is 0 and whose phone
number and eircode are empty strings. -/
theorem claim_C10_witness :
    insertRecordParams falsyOptRec =
      [JSVal.str "John", JSVal.str "Doe", JSVal.str "john@example.com",
       jsOrNull (JSVal.str ""), jsOrNull (JSVal.str ""), JSVal.null] ∧
    bulkParams falsyOptRec =
      [JSVal.str "John", JSVal.str "Doe", JSVal.str "john@example.com", JSVal.null] :=
  (claim_C10 falsyOptRec).1 rfl

/-- C5 counterexample: the claim says every field validator returns true or
false and never throws, for every input including undefined; but the email
validator throws a TypeError on undefined (the validator library asserts a
string argument), so validation of a record with a missing email field
throws rather than returning false. -/
theorem claim_C5_counterexample :
    isValidEmail JSVal.undefined = Except.error JSErr.typeError ∧
    validateRecord
      ⟨JSVal.str "John", JSVal.str "Doe", JSVal.undefined,
       JSVal.undefined, JSVal.undefined, JSVal.undefined⟩ "csv"
      = Except.error JSErr.typeError := by
  constructor
  · rfl
  · rfl

/-- C5 as amended: the name, phone and age validators are total Boolean
predicates over every primitive value (their bodies cannot throw, which the
embedding reflects by giving them type Bool); the email validator returns a
Boolean exactly on string inputs and throws a TypeError on every
non-string input; the eircode validator returns a Boolean exactly on falsy
or string inputs and throws on truthy non-string input. -/
theorem claim_C5 (v : JSVal) :
    ((∃ b, isValidEmail v = Except.ok b) ↔ jsIsString v = true) ∧
    ((∃ b, isValidEircode v = Except.ok b) ↔
      (jsTruthy v = false ∨ jsIsString v = true)) := by
  constructor
  · constructor
    · intro ⟨b, hb⟩
      cases v with
      | str s => rfl
      | undefined => cases hb
      | null => cases hb
      | num n => cases hb
    · intro h
      cases v with
      | str s => exact ⟨_, rfl⟩
      | undefined => cases h
      | null => cases h
      | num n => cases h
  · constructor
    · intro ⟨b, hb⟩
      cases v with
      | str s => right; rfl
      | undefined => left; rfl
      | null => left; rfl
      | num n =>
        left
        cases n with
        | nan => rfl
        | int i =>
          by_cases hi : i = 0
          · rw [hi]; rfl
          · exfalso
            unfold isValidEircode at hb
            rw [if_neg (by simp [jsTruthy, hi])] at hb
            cases hb
    · intro h
      cases v with
      | str s =>
        by_cases ht : jsTruthy (JSVal.str s) = true
        · unfold isValidEircode
          rw [if_neg (by simp [ht])]
          exact ⟨_, rfl⟩
        · unfold isValidEircode
          rw [if_pos (by simp_all)]
          exact ⟨false, rfl⟩
      | undefined => exact ⟨false, rfl⟩
      | null => exact ⟨false, rfl⟩
      | num n =>
        cases h with
        | inl hf =>
          refine ⟨false, ?_⟩
          unfold isValidEircode
          rw [if_pos (by simp [hf])]
        | inr hs => cases hs

/-- C6: on the three-row batch where row 1 is fully valid, row 2 has an
invalid email and row 3 has age 200, the pipeline reports one valid and
two invalid records, the errors array holds exactly the entries for rows 2
and 3 in that order with non-empty violation lists, and exactly one
bulk-persist call is made, containing only row 1's (sanitized) record. -/
theorem claim_C6 :
    handleCSVUpload [] (fun _ => false) [sampleRow, badEmailRow, badAgeRow] =
      { response := CsvResponse.success
          ⟨3, 1, 2, [ErrorEntry.vrej 2 (rowToRecord badEmailRow) [emMsg],
                     ErrorEntry.vrej 3 (rowToRecord badAgeRow) [ageMsg]]⟩,
        fileDeleted := true,
        store := [bulkParams (sanitizeRecord (rowToRecord sampleRow))],
        bulkCalls := [[sanitizeRecord (rowToRecord sampleRow)]] } ∧
    [emMsg] ≠ ([] : List String) ∧ [ageMsg] ≠ ([] : List String) := by
  refine ⟨by decide, by decide, by decide⟩

/-- C2 counterexample: in the batch pipeline the record validator runs on
the raw, unsanitized record. For the row whose first name is the string
consisting of John wrapped in a b tag, the pipeline rejects the row with a
first-name violation, although validating the sanitized record accepts it:
validation saw the unsanitized field values. -/
theorem claim_C2_counterexample :
    csvRowStep tagNameRow = RowResult.rejected (rowToRecord tagNameRow) [fnMsg] ∧
    validateRecord (sanitizeRecord (rowToRecord tagNameRow)) "csv" =
      Except.ok ⟨true, []⟩ := by
  exact ⟨by decide, by decide⟩

/-- C2 as amended: in the form path, sanitization precedes validation (the
middleware outcome is invariant under pre-sanitizing the body, because the
body is sanitized before any check); in the batch path, validateRecord runs
on the raw candidate record, and sanitizeRecord is applied only to records
that already passed validation, before persistence. -/
theorem claim_C2 :
    (∀ body : FormBody,
      validateFormInput (sanitizeFormBody body) = validateFormInput body) ∧
    (∀ (row : CsvRow) (v : VResult),
      validateRecord (rowToRecord row) "csv" = Except.ok v →
      (v.isValid = true →
        csvRowStep row = RowResult.accepted (sanitizeRecord (rowToRecord row))) ∧
      (v.isValid = false →
        csvRowStep row = RowResult.rejected (rowToRecord row) v.errors)) := by
  constructor
  · intro body
    unfold validateFormInput
    rw [sanitizeFormBody_idem]
  · intro row v hv
    constructor
    · intro hval
      simp only [csvRowStep]
      rw [hv]
      simp [hval]
    · intro hval
      simp only [csvRowStep]
      rw [hv]
      simp [hval]

/-- Witness for C2's batch conjunct at the fully valid sample row. -/
theorem claim_C2_witness :
    csvRowStep sampleRow = RowResult.accepted (sanitizeRecord (rowToRecord sampleRow)) :=
  (claim_C2.2 sampleRow ⟨true, []⟩ (by decide)).1 rfl

/-- C3 counterexample: the claim says the uploaded temporary file is
deleted whatever the outcome, including a store error; but when the bulk
persistence fails, the handler jumps to its catch block before reaching the
unlink, so the file is not deleted. -/
theorem claim_C3_counterexample :
    (handleCSVUpload [] (fun _ => true) [sampleRow]).fileDeleted = false ∧
    (handleCSVUpload [] (fun _ => true) [sampleRow]).response = CsvResponse.failure := by
  exact ⟨by decide, by decide⟩

/-- C3 as amended: the uploaded temporary file is deleted exactly when the
upload request succeeds (including uploads with row rejections and uploads
with nothing to persist); when the pipeline fails in the bulk persistence
step, the 500 path is taken before the unlink and the file survives. -/
theorem claim_C3 (st : StoreState) (fails : Nat → Bool) (rows : List CsvRow) :
    (handleCSVUpload st fails rows).fileDeleted =
      ((handleCSVUpload st fails rows).response).isSuccess := by
  by_cases h : (processRows rows).1 = []
  · simp only [handleCSVUpload, if_pos h]
    rfl
  · simp only [handleCSVUpload, if_neg h]
    cases hins : insertBulkRecords st fails (processRows rows).1 with
    | mk e st2 => cases e <;> rfl

/-- Evaluation of validateRecord for the batch source on a record whose
name and email fields are valid: everything reduces to the age guard of
the source code, which applies the age rule only to truthy ages. -/
theorem validateRecord_csv_goodFields (r : Record)
    (hfn : isValidName r.first_name = true)
    (hln : isValidName r.last_name = true)
    (hem : isValidEmail r.email = Except.ok true) :
    validateRecord r "csv" =
      Except.ok (if jsTruthy r.age && !isValidAge r.age
                 then ⟨false, [ageMsg]⟩ else ⟨true, []⟩) := by
  by_cases ha : (jsTruthy r.age && !isValidAge r.age) = true
  · simp [validateRecord, hem, hfn, hln, ha]
  · rw [Bool.not_eq_true] at ha
    simp [validateRecord, hem, hfn, hln, ha]

/-- C4 as amended: for a batch-source record with valid name and email
fields, the age rule is applied only when the age value is truthy: the
record is rejected with exactly the age violation precisely when the age is
truthy and fails the age rule; ages 0 and 120 are accepted; and a
non-numeric age (NaN, as produced by the pipeline's parseInt on
non-numeric input) is falsy, skips the rule, and is accepted rather than
rejected. -/
theorem claim_C4 (r : Record)
    (hfn : isValidName r.first_name = true)
    (hln : isValidName r.last_name = true)
    (hem : isValidEmail r.email = Except.ok true) :
    (validateRecord r "csv" = Except.ok ⟨true, []⟩ ↔
      (jsTruthy r.age = false ∨ isValidAge r.age = true)) ∧
    ((jsTruthy r.age = true ∧ isValidAge r.age = false) →
      validateRecord r "csv" = Except.ok ⟨false, [ageMsg]⟩) ∧
    (r.age = JSVal.num JSNum.nan → validateRecord r "csv" = Except.ok ⟨true, []⟩) ∧
    (r.age = JSVal.num (JSNum.int 0) → validateRecord r "csv" = Except.ok ⟨true, []⟩) ∧
    (r.age = JSVal.num (JSNum.int 120) → validateRecord r "csv" = Except.ok ⟨true, []⟩) := by
  have hval := validateRecord_csv_goodFields r hfn hln hem
  refine ⟨?_, ?_, ?_, ?_, ?_⟩
  · rw [hval]
    constructor
    · intro h
      by_cases ht : jsTruthy r.age = true
      · by_cases hv : isValidAge r.age = true
        · exact Or.inr hv
        · rw [Bool.not_eq_true] at hv
          rw [if_pos (by simp [ht, hv])] at h
          cases h
      · rw [Bool.not_eq_true] at ht
        exact Or.inl ht
    · intro h
      rcases h with ht | hv
      · rw [if_neg (by simp [ht])]
      · rw [if_neg (by simp [hv])]
  · intro ⟨ht, hv⟩
    rw [hval, if_pos (by simp [ht, hv])]
  · intro h
    rw [hval, if_neg (by rw [h]; decide)]
  · intro h
    rw [hval, if_neg (by rw [h]; decide)]
  · intro h
    rw [hval, if_neg (by rw [h]; decide)]

/-- C4 counterexample: a batch row whose age column is non-numeric yields a
candidate record with age NaN; NaN is falsy, so the age guard skips the age
rule and the pipeline accepts the row instead of rejecting it with an age
violation. -/
theorem claim_C4_counterexample :
    (rowToRecord nanAgeRow).age = JSVal.num JSNum.nan ∧
    csvRowStep nanAgeRow = RowResult.accepted (sanitizeRecord (rowToRecord nanAgeRow)) := by
  exact ⟨by decide, by decide⟩

/-- Witness for C4 at the record with age 200: the theorem yields the age
rejection with exactly the age violation. -/
theorem claim_C4_witness :
    validateRecord age200Rec "csv" = Except.ok ⟨false, [ageMsg]⟩ :=
  (claim_C4 age200Rec (by decide) (by decide) (by decide)).2.1 ⟨by decide, by decide⟩

/-- An alphanumeric character is not trimmable whitespace. -/
theorem jsWS_of_alnum (c : Char) (h : c.isAlphanum = true) : jsWS c = false := by
  unfold jsWS
  by_contra hc
  rw [Bool.not_eq_false, decide_eq_true_eq] at hc
  fin_cases hc <;> exact absurd h (by decide)

/-- Trimmable whitespace is not alphanumeric. -/
theorem not_alnum_of_jsWS (c : Char) (h : jsWS c = true) : c.isAlphanum = false := by
  unfold jsWS at h
  rw [decide_eq_true_eq] at h
  fin_cases h <;> decide

/-- C7 counterexample: the claim says the name validator rejects every name
containing whitespace, but the validator trims first, so a name with
leading and trailing spaces around letters is accepted although it
contains whitespace. -/
theorem claim_C7_counterexample :
    (' ' ∈ (" abc ").data) ∧ isValidName (JSVal.str " abc ") = true := by
  exact ⟨by decide, by decide⟩

/-- C7 as amended: the name validator accepts every string of one to
twenty letters and digits; it trims leading and trailing whitespace before
checking, and rejects every name that contains punctuation (a character
that is neither alphanumeric nor whitespace), every name whose trimmed
form still contains whitespace, every name that trims to the empty string,
and every name whose trimmed form is longer than twenty characters. -/
theorem claim_C7 (s : String) :
    (namePat s → isValidName (JSVal.str s) = true) ∧
    (∀ c ∈ s.data, c.isAlphanum = false → jsWS c = false →
      isValidName (JSVal.str s) = false) ∧
    (∀ c ∈ jsTrimList s.data, jsWS c = true → isValidName (JSVal.str s) = false) ∧
    (jsTrimList s.data = [] → isValidName (JSVal.str s) = false) ∧
    (20 < (jsTrimList s.data).length → isValidName (JSVal.str s) = false) := by
  refine ⟨?_, ?_, ?_, ?_, ?_⟩
  · intro ⟨hne, hlen, hall⟩
    have hws : ∀ c ∈ s.data, jsWS c = false :=
      fun c hc => jsWS_of_alnum c (hall c hc)
    have ht := jsTrimList_eq_self_of_all s.data hws
    simp only [isValidName, ht]
    simp only [Bool.and_eq_true, Bool.not_eq_eq_eq_not, Bool.not_false, decide_eq_true_eq,
      List.all_eq_true]
    exact ⟨⟨by simpa using hne, hlen⟩, hall⟩
  · intro c hc halnum hws
    have hmem : c ∈ jsTrimList s.data := mem_jsTrimList_of_not_ws s.data c hc hws
    cases hall : (jsTrimList s.data).all Char.isAlphanum with
    | false => unfold isValidName; simp [hall]
    | true =>
      exfalso
      have := List.all_eq_true.mp hall c hmem
      rw [halnum] at this
      cases this
  · intro c hc hws
    have halnum : c.isAlphanum = false := not_alnum_of_jsWS c hws
    cases hall : (jsTrimList s.data).all Char.isAlphanum with
    | false => unfold isValidName; simp [hall]
    | true =>
      exfalso
      have := List.all_eq_true.mp hall c hc
      rw [halnum] at this
      cases this
  · intro h
    unfold isValidName
    simp [h]
  · intro h
    unfold isValidName
    simp [h]

/-- Witness for C7: the accept side at a plain alphanumeric name and the
reject side at a name with interior whitespace. -/
theorem claim_C7_witness :
    isValidName (JSVal.str "John") = true ∧ isValidName (JSVal.str "Jo hn") = false := by
  constructor
  · exact (claim_C7 "John").1 ⟨by decide, by decide, by decide⟩
  · exact (claim_C7 "Jo hn").2.2.1 ' ' (by decide) (by decide)

/-- An empty-or-single-message if with the message in the else branch is a
sublist of the singleton of that message. -/
theorem ite_nil_single {c : Prop} [Decidable c] (m : String) :
    (if c then ([] : List String) else [m]).Sublist [m] := by
  split
  · exact List.nil_sublist [m]
  · exact List.Sublist.refl [m]

/-- An empty-or-single-message if with the message in the then branch is a
sublist of the singleton of that message. -/
theorem ite_single_nil {c : Prop} [Decidable c] (m : String) :
    (if c then [m] else ([] : List String)).Sublist [m] := by
  split
  · exact List.Sublist.refl [m]
  · exact List.nil_sublist [m]

/-- The phone violations (required, or else the rule message) form a
sublist of the two phone messages in order. -/
theorem phone_ite_sublist {c d : Prop} [Decidable c] [Decidable d] (m1 m2 : String) :
    (if c then [m1] else if d then [m2] else ([] : List String)).Sublist [m1, m2] := by
  split
  · exact List.Sublist.cons₂ m1 (List.nil_sublist [m2])
  · split
    · exact List.Sublist.cons m1 (List.Sublist.refl [m2])
    · exact List.nil_sublist [m1, m2]

/-- C8: the record validator is a pure function (two runs on the same
record and source give the same result), and every violation list it
returns is a sublist of the fixed canonical message order of its source:
first name, last name and email violations first, then the
source-specific ones, so error lists are deterministic and ordered. -/
theorem claim_C8 (r : Record) (source : String) :
    validateRecord r source = validateRecord r source ∧
    (∀ v : VResult, validateRecord r source = Except.ok v →
      v.errors.Sublist (canonicalMsgs source)) := by
  refine ⟨rfl, ?_⟩
  intro v hv
  unfold validateRecord at hv
  cases hem : isValidEmail r.email with
  | error e =>
    rw [hem] at hv
    cases hv
  | ok emOk =>
    rw [hem] at hv
    simp only [] at hv
    by_cases hs : source = "form"
    · subst hs
      rw [if_pos rfl] at hv
      by_cases hec : jsTruthy r.eircode = true
      · rw [if_pos hec] at hv
        cases hece : isValidEircode r.eircode with
        | error e =>
          rw [hece] at hv
          cases hv
        | ok ecOk =>
          rw [hece] at hv
          injection hv with hv2
          rw [← hv2]
          exact ((((ite_nil_single fnMsg).append (ite_nil_single lnMsg)).append
            (ite_nil_single emMsg)).append
            (phone_ite_sublist phoneReqMsg phoneRuleMsg)).append
            (List.Sublist.cons eirReqMsg (ite_nil_single eirRuleMsg))
      · rw [if_neg hec] at hv
        injection hv with hv2
        rw [← hv2]
        exact ((((ite_nil_single fnMsg).append (ite_nil_single lnMsg)).append
          (ite_nil_single emMsg)).append
          (phone_ite_sublist phoneReqMsg phoneRuleMsg)).append
          (List.Sublist.cons₂ eirReqMsg (List.nil_sublist [eirRuleMsg]))
    · rw [if_neg hs] at hv
      by_cases hcsv : source = "csv"
      · subst hcsv
        rw [if_pos rfl] at hv
        injection hv with hv2
        rw [← hv2]
        exact (((ite_nil_single fnMsg).append (ite_nil_single lnMsg)).append
          (ite_nil_single emMsg)).append (ite_single_nil ageMsg)
      · rw [if_neg hcsv] at hv
        injection hv with hv2
        rw [← hv2]
        unfold canonicalMsgs
        rw [if_neg hs, if_neg hcsv]
        exact ((ite_nil_single fnMsg).append (ite_nil_single lnMsg)).append
          (ite_nil_single emMsg)

/-- Witness for C8 at the invalid-email row with source csv. -/
theorem claim_C8_witness :
    ([emMsg] : List String).Sublist (canonicalMsgs "csv") :=
  (claim_C8 (rowToRecord badEmailRow) "csv").2 ⟨false, [emMsg]⟩ (by decide)

/-- C1: for a non-empty accepted batch, a store failure during bulk
persistence (insertBulkRecords) commits nothing: the call rolls back, the
store after the failed call equals the store before it, and the CSV
handler surfaces the rethrown error as a pipeline failure (the 500 of its
catch block) instead of a summary. -/
theorem claim_C1 (st : StoreState) (fails : Nat → Bool) (records : List Record)
    (rows : List CsvRow)
    (hne : records ≠ [])
    (hf : txFailIdx fails records.length = true) :
    insertBulkRecords st fails records = (Except.error (), st) ∧
    (acceptedRecords rows = records →
      (handleCSVUpload st fails rows).store = st ∧
      (handleCSVUpload st fails rows).response = CsvResponse.failure) := by
  have hroll := insertBulkRecords_rollback st fails records hf
  refine ⟨hroll, ?_⟩
  intro hacc
  unfold acceptedRecords at hacc
  have hne2 : ¬ (processRows rows).1 = [] := by
    rw [hacc]
    exact hne
  constructor
  · simp only [handleCSVUpload, if_neg hne2]
    rw [hacc, hroll]
  · simp only [handleCSVUpload, if_neg hne2]
    rw [hacc, hroll]

/-- Witness for C1: one valid row, a store that fails every statement. -/
theorem claim_C1_witness :
    insertBulkRecords [] (fun _ => true) (acceptedRecords [sampleRow]) =
      (Except.error (), []) ∧
    (handleCSVUpload [] (fun _ => true) [sampleRow]).store = [] ∧
    (handleCSVUpload [] (fun _ => true) [sampleRow]).response = CsvResponse.failure := by
  have h := claim_C1 [] (fun _ => true) (acceptedRecords [sampleRow]) [sampleRow]
    (by decide) (by decide)
  exact ⟨h.1, (h.2 rfl).1, (h.2 rfl).2⟩
